import Mathlib

/-!
# Verification of the rpi-ups-pico daemons

Shallow embedding of the two daemons of the `ef-gy/rpi-ups-pico`
repository (`src/picod.c` and `src/pico-i2cd.c`) together with proofs
about the embedded definitions.

Conventions used throughout:

* C `long`/`int` values are modelled as `Int`; bitwise `w & 0xff` on a
  two's-complement integer is `w % 256` (Lean's `%` on `Int` is
  Euclidean, hence lands in `[0, 256)` for a positive modulus) and the
  arithmetic right shift `w >> 8` is `Int.fdiv w 256` (floor division,
  which is what gcc produces for signed values).
* C `float` arithmetic is modelled exactly over `ℚ`; the properties
  proved here (decode formulas, signs of results) are unaffected by
  float rounding.
* External effects (I2C transactions, GPIO reads/writes, the uinput
  event sink, `usleep`) are modelled as oracle functions passed in as
  arguments, and as explicit traces of the calls a function issues.
-/

namespace UpsPico

/-! ## Register client (`src/pico-i2cd.c`) -/

/-- The `struct i2c` state: the file descriptor is irrelevant to the
embedded behaviour, only the cached address matters. -/
structure I2c where
  addr : Int
  deriving Repr, DecidableEq

/-- The I2C transport as the driver sees it: whether the
`ioctl(I2C_SLAVE, addr)` call succeeds, and the raw result of an SMBUS
word read at a given (address, register) pair (negative = failure). -/
structure Transport where
  selectOk : Int → Bool
  readWordData : Int → Int → Int

/-- Function `selectAddr` from `src/pico-i2cd.c`: a no-op when the address is
already dialed; otherwise issues the select call, caching the address
only on success.  Returns the new state and the C return value. -/
def selectAddr (t : Transport) (i2c : I2c) (addr : Int) : I2c × Int :=
  if i2c.addr = addr then (i2c, 0)
  else if t.selectOk addr then ({ addr := addr }, 0)
  else (i2c, -1)

/-- Function `getWord` from `src/pico-i2cd.c`: select the address, then read a
word; `-1` when the select fails, `-3` when the read returns a negative
result, the raw word otherwise. -/
def getWord (t : Transport) (i2c : I2c) (addr reg : Int) : I2c × Int :=
  let s := selectAddr t i2c addr
  if s.2 < 0 then (s.1, -1)
  else
    let res := t.readWordData addr reg
    if res < 0 then (s.1, -3) else (s.1, res)

/-- Function `getFloat` from `src/pico-i2cd.c`: `v1 = w & 0xff`,
`v2 = (w >> 8) & 0xff`, result `v2 + v1 / 100.`.  The float arithmetic
is modelled exactly over `ℚ`. -/
def getFloat (w : Int) : ℚ :=
  let v1 : ℚ := ((w % 256 : Int) : ℚ)
  let v2 : ℚ := ((Int.fdiv w 256 % 256 : Int) : ℚ)
  v2 + v1 / 100

/-- Function `getBatteryVoltage` from `src/pico-i2cd.c`:
`getFloat(getWord(i2c, 0x69, 0x01))`. -/
def getBatteryVoltage (t : Transport) (i2c : I2c) : ℚ :=
  getFloat (getWord t i2c 0x69 0x01).2

/-- Function `getHostVoltage` from `src/pico-i2cd.c`:
`getFloat(getWord(i2c, 0x69, 0x03))`. -/
def getHostVoltage (t : Transport) (i2c : I2c) : ℚ :=
  getFloat (getWord t i2c 0x69 0x03).2

/-- The spec's decode formula for a 16-bit word, written exactly as in
the spec: `(w>>8 & 0xff) + (w & 0xff)/100.0`, over natural-number words
(for refinement comparison with `getFloat`). -/
def specDecodeVoltage (w : ℕ) : ℚ :=
  ((w >>> 8) % 256 : ℕ) + ((w % 256 : ℕ) : ℚ) / 100

/-! ## Input event engine (`src/pico-i2cd.c`, `main`'s 100 ms loop) -/

/-- A key transition event written to the uinput sink
(`event.value = 1` for a press, `0` for a release). -/
inductive KEvent where
  | press
  | release
  deriving Repr, DecidableEq

/-- One key's slice of a poll cycle, from the body of the `for` loop in
`main` of `src/pico-i2cd.c`.  `rel` is `release[i]`, `scan` the result
of `getKey` (negative = read failure), `accept` whether the
`write(device, &event, ...)` call transfers the full event.  Returns
the new `release[i]` and the event that was *emitted* (i.e. whose
write was accepted, which is when `synchronise` is set). -/
def keyStep (rel : Bool) (scan : Int) (accept : Bool) : Bool × Option KEvent :=
  if rel then
    if scan = 0 then
      -- armed, reads released: attempt the release event
      if accept then (false, some KEvent.release) else (rel, none)
    else
      -- still pressed (or read failure): re-issue the hardware reset only
      (rel, none)
  else
    if scan > 0 then
      -- idle, reads pressed: attempt the press event
      if accept then (true, some KEvent.press) else (rel, none)
    else
      (rel, none)

/-- The event write a key *attempts* in a poll, before the sink
accepts or rejects it: a release write when armed and reading 0, a
press write when idle and reading positive, nothing otherwise. -/
def keyAttempt (rel : Bool) (scan : Int) : Option KEvent :=
  if rel then
    if scan = 0 then some KEvent.release else none
  else
    if scan > 0 then some KEvent.press else none

/-- Run one key through a sequence of polls; each poll is a pair of the
status-register reading and whether the sink accepts the (possible)
event write.  Returns the final `release[i]` and the per-poll emitted
events. -/
def keyRun (rel : Bool) : List (Int × Bool) → Bool × List (Option KEvent)
  | [] => (rel, [])
  | (scan, acc) :: rest =>
    let s := keyStep rel scan acc
    let r := keyRun s.1 rest
    (r.1, s.2 :: r.2)

/-- A poll sequence in which every sink write is accepted. -/
def keyRunAll (rel : Bool) (scans : List Int) : Bool × List (Option KEvent) :=
  keyRun rel (scans.map fun s => (s, true))

/-! ## Watchdog daemon (`src/picod.c`) -/

/-- An observable action of `pulse`: a `set(22, level)` call or a
`usleep(usec)` call, in program order. -/
inductive PulseAct where
  | setPin (level : Bool)
  | sleep (usec : ℕ)
  deriving Repr, DecidableEq

/-- Function `pulse` from `src/picod.c`.  `set` is the oracle for the two
`set(gpio, _)` calls (their C return values; `0` = success).  Returns
the C return value together with the trace of pin-set and sleep calls
actually performed: `set` high, return `-1` on failure; `usleep
(duration)`; `set` low, return `-2` on failure; `usleep(period -
duration)`. -/
def pulse (set : Bool → Int) (period duration : ℕ) : Int × List PulseAct :=
  if set true ≠ 0 then (-1, [PulseAct.setPin true])
  else if set false ≠ 0 then
    (-2, [PulseAct.setPin true, PulseAct.sleep duration, PulseAct.setPin false])
  else
    (0, [PulseAct.setPin true, PulseAct.sleep duration, PulseAct.setPin false,
         PulseAct.sleep (period - duration)])

/-- The sleep durations occurring in a trace of pulse actions. -/
def sleepsOf (acts : List PulseAct) : List ℕ :=
  acts.filterMap fun a =>
    match a with
    | PulseAct.sleep u => some u
    | PulseAct.setPin _ => none

/-- The mutable state of `main`'s watchdog loop in `src/picod.c`:
`fssdWasHigh` and `initialPulse`. -/
structure WD where
  fssdWasHigh : Bool
  initialPulse : Bool
  deriving Repr, DecidableEq

/-- The state at entry of the loop: `fssdWasHigh = 0`,
`initialPulse = 1`. -/
def wdInit : WD := { fssdWasHigh := false, initialPulse := true }

/-- The observable outcome of one iteration of the watchdog loop. -/
structure WDIter where
  state : WD
  pulsed : Bool
  shutdown : Bool
  deriving Repr, DecidableEq

/-- One iteration of the `while (1)` loop of `main` in `src/picod.c`,
given the sense value `sig` used this iteration (`get(27)`'s result
when FSSD processing is enabled, `1` otherwise; negative = read
failure):
`fssdWasHigh = (fssdSignal == 1) ? 1 : fssdWasHigh`; the pulse is sent
when `initialPulse == 1 || fssdWasHigh == 1` (and then `initialPulse`
is cleared); the shutdown command runs when `fssdWasHigh == 1 &&
fssdSignal == 0`, after which `fssdWasHigh` is reset to `0`. -/
def wdStep (s : WD) (sig : Int) : WDIter :=
  let wasHigh := if sig = 1 then true else s.fssdWasHigh
  let doPulse := s.initialPulse || wasHigh
  let initialPulse' := if doPulse then false else s.initialPulse
  let shutdown := wasHigh && decide (sig = 0)
  let wasHigh' := if shutdown then false else wasHigh
  { state := { fssdWasHigh := wasHigh', initialPulse := initialPulse' },
    pulsed := doPulse, shutdown := shutdown }

/-- The pin-set/sleep trace of one watchdog-loop iteration: the
`(void)pulse(22, 500000, 250000)` call when the pulse condition holds,
nothing otherwise (the loop body contains no other `usleep`). -/
def wdStepActs (s : WD) (sig : Int) (set : Bool → Int) : List PulseAct :=
  if (wdStep s sig).pulsed then (pulse set 500000 250000).2 else []

/-- Run the watchdog loop over a list of per-iteration sense values;
returns the final state and, per iteration, the `(pulsed, shutdown)`
pair. -/
def wdRun (s : WD) : List Int → WD × List (Bool × Bool)
  | [] => (s, [])
  | sig :: rest =>
    let it := wdStep s sig
    let r := wdRun it.state rest
    (r.1, (it.pulsed, it.shutdown) :: r.2)

/-- The sense value an iteration uses, from
`(fssd == 1) ? get(27) : 1` in `src/picod.c`: the pin reading when
FSSD processing is enabled, the constant `1` otherwise. -/
def wdSignal (fssd : Bool) (pinRead : Int) : Int :=
  if fssd then pinRead else 1

/-- The watchdog loop as `main` runs it: each iteration's sense value
comes from `wdSignal` applied to that iteration's pin reading. -/
def wdMainRun (fssd : Bool) (s : WD) (pinReads : List Int) : WD × List (Bool × Bool) :=
  wdRun s (pinReads.map (wdSignal fssd))

/-! ## GPIO pin setup with retry (`src/picod.c`, `setup`) -/

/-- Constant `maxRetries` from `src/picod.c`. -/
def maxRetries : ℕ := 8

/-- The direction-setting `do { ... } while (rv < 0 && retries++ <
maxRetries)` loop of `setup` in `src/picod.c`, recursing on the number
`n = maxRetries - retries` of retries still allowed.  `dir k` is the
result of the `k`-th `direction(gpio, output)` call (`k` starts at 0;
negative = failure).  Returns the final `rv` and the number of
`direction` calls made from this point on. -/
def dirGo (dir : ℕ → Int) (retries : ℕ) : ℕ → Int × ℕ
  | 0 => (dir retries, 1)
  | n + 1 =>
    if dir retries < 0 then
      ((dirGo dir (retries + 1) n).1, (dirGo dir (retries + 1) n).2 + 1)
    else
      (dir retries, 1)

/-- Function `setup` from `src/picod.c`, with the `export` result and the
`direction` results supplied as oracles.  Returns the C return value
and the number of `direction` calls performed. -/
def setup (exportRv : Int) (dir : ℕ → Int) : Int × ℕ :=
  if exportRv < 0 then (exportRv, 0)
  else
    (if (dirGo dir 0 maxRetries).1 < 0 then (dirGo dir 0 maxRetries).1 else 0,
     (dirGo dir 0 maxRetries).2)

/-! ## Full poll cycle of the input event engine (`src/pico-i2cd.c`) -/

/-- A write issued to the uinput event sink during a poll cycle: a key
event for the key at index `idx` (rejected writes are still issued),
or the `EV_SYN` synchronisation marker. -/
inductive SinkWrite where
  | key (idx : ℕ) (e : KEvent)
  | syn
  deriving Repr, DecidableEq

/-- Whether a sink write is the synchronisation marker. -/
def isSyn : SinkWrite → Bool
  | SinkWrite.syn => true
  | SinkWrite.key _ _ => false

/-- The `for (i = 0; i < 3; i++)` scan inside the poll loop of `main`
in `src/pico-i2cd.c`, generalised over the list of keys.  Each key is
a triple of its `release[i]` flag, its `getKey` reading and whether
the sink accepts its (possible) event write; `idx` is the index of the
first key.  Returns the new `release` flags, the key-event writes
issued in key order, and the final `synchronise` flag (set exactly
when some key's write was accepted; it is `0` on entry of every cycle
because the previous cycle consumed it). -/
def cycleScan (idx : ℕ) : List (Bool × Int × Bool) → List Bool × List SinkWrite × Bool
  | [] => ([], [], false)
  | (rel, scan, acc) :: rest =>
    let st := keyStep rel scan acc
    let r := cycleScan (idx + 1) rest
    (st.1 :: r.1,
     ((keyAttempt rel scan).toList.map fun e => SinkWrite.key idx e) ++ r.2.1,
     (st.2.isSome || r.2.2))

/-- One full poll cycle of `main`'s input loop in `src/pico-i2cd.c`:
scan all keys, then, if `synchronise` was set, issue the single
`EV_SYN` write (whose own result is discarded) and clear the flag.
Returns the new `release` flags and the ordered list of sink writes
issued during the cycle. -/
def cycle (keys : List (Bool × Int × Bool)) : List Bool × List SinkWrite :=
  let r := cycleScan 0 keys
  (r.1, r.2.1 ++ if r.2.2 then [SinkWrite.syn] else [])

/-! ## Helper lemmas -/

/-- In a run of the watchdog loop from a state with `fssdWasHigh`
clear, over sense values that never read high, no iteration triggers a
shutdown. -/
theorem wdRun_never_high (sigs : List Int) : ∀ (s : WD), s.fssdWasHigh = false →
    (∀ x ∈ sigs, x ≠ 1) → (wdRun s sigs).2.countP (fun p => p.2) = 0 := by
  induction sigs with
  | nil => intro s _ _; simp [wdRun]
  | cons sig rest ih =>
    intro s hs hall
    have hsig : ¬ sig = 1 := hall sig (List.mem_cons_self _ _)
    have h1 : (wdStep s sig).state.fssdWasHigh = false := by
      simp [wdStep, hs, hsig]
    have h2 : (wdStep s sig).shutdown = false := by
      simp [wdStep, hs, hsig]
    have := ih (wdStep s sig).state h1 (fun x hx => hall x (List.mem_cons_of_mem _ hx))
    simp [wdRun, List.countP_cons, h2, this]

/-- In a run of the watchdog loop over all-high sense values, every
iteration emits a pulse and none triggers a shutdown (from any start
state: the first iteration's high reading already sets
`fssdWasHigh`). -/
theorem wdRun_all_high (n : ℕ) : ∀ (s : WD),
    (wdRun s (List.replicate n 1)).2.countP (fun p => p.1) = n ∧
    (wdRun s (List.replicate n 1)).2.countP (fun p => p.2) = 0 := by
  induction n with
  | zero => intro s; simp [wdRun]
  | succ n ih =>
    intro s
    have hp : (wdStep s 1).pulsed = true := by simp [wdStep]
    have hsd : (wdStep s 1).shutdown = false := by simp [wdStep]
    have := ih (wdStep s 1).state
    simp [List.replicate_succ, wdRun, List.countP_cons, hp, hsd, this.1, this.2]

/-- With FSSD processing disabled, every iteration's sense value is
the constant `1`, whatever the pin readings are. -/
theorem map_wdSignal_false (l : List Int) :
    l.map (wdSignal false) = List.replicate l.length 1 := by
  induction l with
  | nil => rfl
  | cons a t ih => simp [wdSignal, ih, List.replicate_succ]

/-- The final `rv` of the direction-retry loop is negative exactly
when every `direction` call it can reach fails. -/
theorem dirGo_rv (dir : ℕ → Int) : ∀ (n retries : ℕ),
    ((dirGo dir retries n).1 < 0 ↔ ∀ k, retries ≤ k → k ≤ retries + n → dir k < 0) := by
  intro n
  induction n with
  | zero =>
    intro retries
    simp only [dirGo]
    constructor
    · intro h k hk1 hk2
      have hk : k = retries := by omega
      rwa [hk]
    · intro h
      exact h retries le_rfl (by omega)
  | succ n ih =>
    intro retries
    simp only [dirGo]
    by_cases h : dir retries < 0
    · rw [if_pos h]
      rw [ih (retries + 1)]
      constructor
      · intro hall k hk1 hk2
        rcases Nat.eq_or_lt_of_le hk1 with heq | hlt
        · rwa [← heq]
        · exact hall k (by omega) (by omega)
      · intro hall k hk1 hk2
        exact hall k (by omega) (by omega)
    · rw [if_neg h]
      constructor
      · intro h'
        exact absurd h' h
      · intro hall
        exact absurd (hall retries le_rfl (by omega)) h

/-- The direction-retry loop makes at most `n + 1` `direction`
calls. -/
theorem dirGo_count_le (dir : ℕ → Int) : ∀ (n retries : ℕ),
    (dirGo dir retries n).2 ≤ n + 1 := by
  intro n
  induction n with
  | zero => intro retries; simp [dirGo]
  | succ n ih =>
    intro retries
    simp only [dirGo]
    by_cases h : dir retries < 0
    · rw [if_pos h]
      have := ih (retries + 1)
      omega
    · rw [if_neg h]
      omega

/-- When every reachable `direction` call fails, the direction-retry
loop makes exactly `n + 1` calls. -/
theorem dirGo_count_eq (dir : ℕ → Int) : ∀ (n retries : ℕ),
    (∀ k, retries ≤ k → k ≤ retries + n → dir k < 0) →
    (dirGo dir retries n).2 = n + 1 := by
  intro n
  induction n with
  | zero => intro retries _; simp [dirGo]
  | succ n ih =>
    intro retries hall
    have h : dir retries < 0 := hall retries le_rfl (by omega)
    simp only [dirGo, if_pos h]
    have := ih (retries + 1) (fun k hk1 hk2 => hall k (by omega) (by omega))
    omega

/-- The key-event writes issued during the per-key scan contain no
synchronisation marker. -/
theorem cycleScan_writes_no_syn (keys : List (Bool × Int × Bool)) : ∀ (idx : ℕ),
    ((cycleScan idx keys).2.1).countP isSyn = 0 := by
  induction keys with
  | nil => intro idx; simp [cycleScan]
  | cons k rest ih =>
    intro idx
    obtain ⟨rel, scan, acc⟩ := k
    simp only [cycleScan]
    rw [List.countP_append]
    cases h : keyAttempt rel scan <;> simp [isSyn, ih]

/-- The `synchronise` flag at the end of the per-key scan is set
exactly when some key's event write was accepted. -/
theorem cycleScan_sync_eq_any (keys : List (Bool × Int × Bool)) : ∀ (idx : ℕ),
    (cycleScan idx keys).2.2 =
      keys.any (fun k => ((keyStep k.1 k.2.1 k.2.2).2).isSome) := by
  induction keys with
  | nil => intro idx; rfl
  | cons k rest ih =>
    intro idx
    obtain ⟨rel, scan, acc⟩ := k
    simp [cycleScan, ih, List.any_cons]

/-! ## Claim theorems -/

/-- C7: for every 16-bit word `w`, `getFloat w` equals the spec's
formula `((w >> 8) & 0xff) + (w & 0xff) / 100`; the function is total
(it is a Lean function on all of `Int`), and an out-of-range fraction
byte is not re-normalised: a low byte of `255` still contributes
`255/100`, giving `getFloat 255 = 2.55`. -/
theorem getFloat_decodes (w : ℕ) (_h : w < 65536) :
    getFloat (w : Int) = specDecodeVoltage w ∧ getFloat 255 = 255 / 100 := by
  constructor
  · unfold getFloat specDecodeVoltage
    have hs : w >>> 8 = w / 256 := by
      rw [Nat.shiftRight_eq_div_pow]
    have hf : Int.fdiv (w : ℤ) 256 = (w : ℤ) / 256 :=
      Int.fdiv_eq_ediv _ (by norm_num)
    rw [hs, hf]
    have e1 : (w : ℤ) % 256 = ((w % 256 : ℕ) : ℤ) := by omega
    have e2 : (w : ℤ) / 256 % 256 = ((w / 256 % 256 : ℕ) : ℤ) := by omega
    rw [e1, e2]
    norm_cast
  · unfold getFloat
    norm_num [show Int.fdiv 255 256 = 0 from by decide]

/-- C7 witness: the decode formula evaluated at the spec's own example
word `0x0E32`, which decodes to `14.50`. -/
theorem getFloat_decodes_witness :
    getFloat 3634 = specDecodeVoltage 3634 ∧ getFloat 3634 = 29 / 2 :=
  ⟨(getFloat_decodes 3634 (by norm_num)).1, by
    unfold getFloat
    norm_num [show Int.fdiv 3634 256 = 14 from by decide]⟩

/-- C3: contrary to the claim (and to the source's own doc comments,
which promise "a negative number on error"), a failed word read does
not surface as a negative voltage: `getWord` reports failure as `-3`,
and `getFloat (-3)` is `255 + 253/100 = 257.53 > 0`, because the C
bitmasks reinterpret the two's-complement error code as bytes.  The
same happens for a failed address select (`-1`, giving `257.55`). -/
theorem getVoltage_error_positive :
    getBatteryVoltage ⟨fun _ => true, fun _ _ => -5⟩ ⟨0⟩ = 25753 / 100 ∧
    getHostVoltage ⟨fun _ => true, fun _ _ => -5⟩ ⟨0⟩ = 25753 / 100 ∧
    (0 : ℚ) < getBatteryVoltage ⟨fun _ => true, fun _ _ => -5⟩ ⟨0⟩ ∧
    getFloat (-1) = 25755 / 100 := by
  have hw : (getWord ⟨fun _ => true, fun _ _ => -5⟩ ⟨0⟩ 0x69 0x01).2 = -3 := by decide
  have hw2 : (getWord ⟨fun _ => true, fun _ _ => -5⟩ ⟨0⟩ 0x69 0x03).2 = -3 := by decide
  have hf3 : getFloat (-3) = 25753 / 100 := by
    unfold getFloat
    norm_num [show Int.fdiv (-3) 256 = -1 from by decide]
  have hf1 : getFloat (-1) = 25755 / 100 := by
    unfold getFloat
    norm_num [show Int.fdiv (-1) 256 = -1 from by decide]
  refine ⟨?_, ?_, ?_, hf1⟩
  · unfold getBatteryVoltage
    rw [hw, hf3]
  · unfold getHostVoltage
    rw [hw2, hf3]
  · unfold getBatteryVoltage
    rw [hw, hf3]
    norm_num

/-- C2: with every sink write accepted, a key whose status reads
`[0, 1, 1, 1, 0]` emits exactly one press event, in the poll of the
first `1`, and exactly one release event, in the poll of the final
`0`; a key reading `[1, 1, 1, 0]` emits one press, not three; and an
armed key (`release[i]` set) never emits a press event at all, so
repeated nonzero reads cannot duplicate a press. -/
theorem key_debounce :
    (keyRunAll false [0, 1, 1, 1, 0]).2 =
      [none, some KEvent.press, none, none, some KEvent.release] ∧
    (keyRunAll false [1, 1, 1, 0]).2 =
      [some KEvent.press, none, none, some KEvent.release] ∧
    (keyRunAll false [0, 1, 1, 1, 0]).2.countP
      (fun e => decide (e = some KEvent.press)) = 1 ∧
    (keyRunAll false [0, 1, 1, 1, 0]).2.countP
      (fun e => decide (e = some KEvent.release)) = 1 ∧
    (keyRunAll false [1, 1, 1, 0]).2.countP
      (fun e => decide (e = some KEvent.press)) = 1 ∧
    (∀ (scan : Int) (acc : Bool),
      (keyStep true scan acc).2 = none ∨
      (keyStep true scan acc).2 = some KEvent.release) := by
  refine ⟨by decide, by decide, by decide, by decide, by decide, ?_⟩
  intro scan acc
  simp only [keyStep]
  split_ifs <;> simp

/-- C9: a key's local `release[i]` state advances exactly when the
sink accepted that key's event write this poll (an accepted attempt
flips the flag, anything else leaves it): on a rejected write the
state and the emitted event are unchanged, and the key attempts the
very same transition on the next poll given the same reading. -/
theorem keyStep_sink_gated (rel : Bool) (scan : Int) (acc : Bool) :
    (keyStep rel scan acc).1 =
      (if acc && (keyAttempt rel scan).isSome then !rel else rel) ∧
    (keyStep rel scan false).1 = rel ∧
    (keyStep rel scan false).2 = none ∧
    keyAttempt (keyStep rel scan false).1 scan = keyAttempt rel scan := by
  cases rel <;> cases acc <;>
    simp only [keyStep, keyAttempt] <;>
    split_ifs <;> simp_all

/-- C8: in every poll cycle, the sink traffic is the per-key event
writes (in key order, containing no synchronisation marker) followed
by exactly one synchronisation marker when at least one key's
transition was accepted by the sink, and by nothing when none was:
the marker count is `1` or `0` accordingly and the marker, when
present, comes after all per-key events, never interleaved. -/
theorem cycle_sync_coalesce (keys : List (Bool × Int × Bool)) :
    (cycle keys).2.countP isSyn =
      (if keys.any (fun k => ((keyStep k.1 k.2.1 k.2.2).2).isSome) then 1 else 0) ∧
    ∃ ws : List SinkWrite, ws.countP isSyn = 0 ∧
      (cycle keys).2 = ws ++
        (if keys.any (fun k => ((keyStep k.1 k.2.1 k.2.2).2).isSome)
         then [SinkWrite.syn] else []) := by
  constructor
  · unfold cycle
    rw [List.countP_append, cycleScan_writes_no_syn, cycleScan_sync_eq_any]
    by_cases h : keys.any (fun k => ((keyStep k.1 k.2.1 k.2.2).2).isSome) <;>
      simp [h, isSyn]
  · refine ⟨(cycleScan 0 keys).2.1, cycleScan_writes_no_syn keys 0, ?_⟩
    show (cycleScan 0 keys).2.1 ++
        (if (cycleScan 0 keys).2.2 then [SinkWrite.syn] else []) = _
    rw [cycleScan_sync_eq_any]

/-- C1: the watchdog invokes the shutdown action in an iteration
exactly when `fssdWasHigh` is set and the iteration's sense value is
low, and resets `fssdWasHigh` immediately afterwards; consequently a
run whose sense values never read high triggers no shutdown, the
sequence `[low, high, high, low]` triggers exactly one shutdown at the
final low, and a subsequent `[low, high, low]` triggers a second
one. -/
theorem wd_shutdown_edge :
    (∀ (s : WD) (sig : Int),
      ((wdStep s sig).shutdown = true ↔ s.fssdWasHigh = true ∧ sig = 0) ∧
      ((wdStep s sig).shutdown = true → (wdStep s sig).state.fssdWasHigh = false)) ∧
    (∀ (sigs : List Int) (s : WD), s.fssdWasHigh = false →
      (∀ x ∈ sigs, x ≠ 1) → (wdRun s sigs).2.countP (fun p => p.2) = 0) ∧
    (wdRun wdInit [0, 1, 1, 0, 0, 1, 0]).2.map Prod.snd =
      [false, false, false, true, false, false, true] := by
  refine ⟨?_, wdRun_never_high, by decide⟩
  intro s sig
  by_cases h0 : sig = 0
  · subst h0
    cases hF : s.fssdWasHigh <;> simp [wdStep, hF]
  · by_cases h1 : sig = 1
    · subst h1
      simp [wdStep, h0]
    · simp [wdStep, h0, h1]

/-- C1 witness: a concrete trigger resets `fssdWasHigh`, and a
concrete never-high run has no shutdown. -/
theorem wd_shutdown_edge_witness :
    (wdStep { fssdWasHigh := true, initialPulse := false } 0).state.fssdWasHigh = false ∧
    (wdRun wdInit [0, 0, 0]).2.countP (fun p => p.2) = 0 :=
  ⟨(wd_shutdown_edge.1 ⟨true, false⟩ 0).2 (by decide),
   wd_shutdown_edge.2.1 [0, 0, 0] wdInit rfl (by decide)⟩

/-- C6 counterexample: the no-pulse state is reachable (it is the loop
state right after a `[low, high, high, low]` trigger), and in it, with
a low reading, the iteration emits no pulse and performs no sleep at
all — it proceeds immediately to the next iteration instead of
waiting approximately one period as claimed. -/
theorem wd_busy_loop_counterexample :
    (wdRun wdInit [0, 1, 1, 0]).1 = { fssdWasHigh := false, initialPulse := false } ∧
    (wdStep { fssdWasHigh := false, initialPulse := false } 0).pulsed = false ∧
    wdStepActs { fssdWasHigh := false, initialPulse := false } 0 (fun _ => 0) = [] := by
  refine ⟨by decide, by decide, by decide⟩

/-- C6 (amended): an iteration of the watchdog loop emits no pulse
exactly when the initial pulse has been sent, `fssdWasHigh` is clear
and the current sense value is not high; in such an iteration the
loop performs no sleep whatsoever (the only sleeps of the loop body
are inside `pulse`), so it proceeds to the next iteration
immediately rather than waiting a period. -/
theorem wd_noPulse_noWait (s : WD) (sig : Int) (set : Bool → Int) :
    ((wdStep s sig).pulsed = false ↔
      s.initialPulse = false ∧ s.fssdWasHigh = false ∧ ¬ sig = 1) ∧
    ((wdStep s sig).pulsed = false → wdStepActs s sig set = []) := by
  constructor
  · by_cases h1 : sig = 1
    · simp [wdStep, h1]
    · cases hF : s.fssdWasHigh <;> cases hI : s.initialPulse <;>
        simp [wdStep, h1, hF, hI]
  · intro h
    simp [wdStepActs, h]

/-- C6 witness: the amended theorem applied at the reachable no-pulse
state. -/
theorem wd_noPulse_noWait_witness :
    wdStepActs { fssdWasHigh := false, initialPulse := false } 0 (fun _ => 1) = [] :=
  (wd_noPulse_noWait ⟨false, false⟩ 0 (fun _ => 1)).2 (by decide)

/-- C10: with FSSD sense monitoring disabled, every iteration's sense
value is the constant high (`1`) without consulting the pin readings,
every iteration emits a pulse, and no iteration ever invokes the
shutdown action, for runs of any length. -/
theorem wd_fssd_disabled (pinReads : List Int) :
    pinReads.map (wdSignal false) = List.replicate pinReads.length 1 ∧
    (wdMainRun false wdInit pinReads).2.countP (fun p => p.1) = pinReads.length ∧
    (wdMainRun false wdInit pinReads).2.countP (fun p => p.2) = 0 := by
  refine ⟨map_wdSignal_false _, ?_, ?_⟩ <;>
  · unfold wdMainRun
    rw [map_wdSignal_false]
    first
      | exact (wdRun_all_high pinReads.length wdInit).1
      | exact (wdRun_all_high pinReads.length wdInit).2

/-- C4 counterexample: when the first level-set fails, `pulse` returns
`-1` having slept zero times, and when the second level-set fails it
returns `-2` having slept only the first phase — the sleeps are
skipped on level-set failure, contrary to the claim that both sleep
phases still occur in every execution. -/
theorem pulse_skip_sleep_counterexample :
    (pulse (fun _ => -1) 500000 250000).1 = -1 ∧
    sleepsOf (pulse (fun _ => -1) 500000 250000).2 = [] ∧
    (pulse (fun l => if l then 0 else -1) 500000 250000).1 = -2 ∧
    sleepsOf (pulse (fun l => if l then 0 else -1) 500000 250000).2 = [250000] := by
  refine ⟨by decide, by decide, by decide, by decide⟩

/-- C4 (amended): `pulse` sets the pin high and returns `-1` at once
(no sleep) if that fails; otherwise it sleeps for `duration`, sets the
pin low, and returns `-2` (skipping the second sleep) if that fails;
otherwise it sleeps the remaining `period - duration` and returns
`0`.  It succeeds exactly when both level-sets succeed, and each sleep
phase occurs exactly when the level-set before it succeeded. -/
theorem pulse_spec (set : Bool → Int) (period duration : ℕ) :
    ((pulse set period duration).1 = 0 ↔ set true = 0 ∧ set false = 0) ∧
    (¬ set true = 0 →
      (pulse set period duration).1 = -1 ∧
      sleepsOf (pulse set period duration).2 = []) ∧
    (set true = 0 → ¬ set false = 0 →
      (pulse set period duration).1 = -2 ∧
      sleepsOf (pulse set period duration).2 = [duration]) ∧
    (set true = 0 → set false = 0 →
      (pulse set period duration).1 = 0 ∧
      sleepsOf (pulse set period duration).2 = [duration, period - duration]) := by
  by_cases h1 : set true = 0 <;> by_cases h2 : set false = 0 <;>
    simp [pulse, sleepsOf, h1, h2]

/-- C4 witness: the amended theorem applied to an always-succeeding
level-set oracle at the daemon's actual period and duty. -/
theorem pulse_spec_witness :
    (pulse (fun _ => 0) 500000 250000).1 = 0 ∧
    sleepsOf (pulse (fun _ => 0) 500000 250000).2 = [250000, 250000] :=
  (pulse_spec (fun _ => 0) 500000 250000).2.2.2 rfl rfl

/-- C5 counterexample: with every `direction` call failing, `setup`
makes `9` attempts, not at most `8` as claimed; and when exactly the
first `8` attempts fail but the 9th succeeds, `setup` succeeds even
though all of the claimed maximum of `8` attempts failed. -/
theorem setup_retry_counterexample :
    (setup 0 (fun _ => -1)).2 = 9 ∧
    (setup 0 (fun k => if k < 8 then -1 else 0)).1 = 0 ∧
    (setup 0 (fun k => if k < 8 then -1 else 0)).2 = 9 := by
  refine ⟨by decide, by decide, by decide⟩

/-- C5 (amended): after a successful export, `setup` attempts the
direction-set at most `maxRetries + 1 = 9` times (one initial attempt
plus up to `maxRetries` retries) and returns a direction-setup
failure exactly when all `9` of those attempts fail — giving up after
exactly `9` direction-set attempts, not before and not after. -/
theorem setup_retry_bound (exportRv : Int) (dir : ℕ → Int) (hexp : 0 ≤ exportRv) :
    (setup exportRv dir).2 ≤ maxRetries + 1 ∧
    ((setup exportRv dir).1 < 0 ↔ ∀ k, k ≤ maxRetries → dir k < 0) ∧
    ((∀ k, k ≤ maxRetries → dir k < 0) → (setup exportRv dir).2 = maxRetries + 1) := by
  have hnot : ¬ exportRv < 0 := not_lt.mpr hexp
  unfold setup
  rw [if_neg hnot]
  refine ⟨dirGo_count_le dir maxRetries 0, ?_, ?_⟩
  · have hrv := dirGo_rv dir maxRetries 0
    by_cases h : (dirGo dir 0 maxRetries).1 < 0
    · rw [if_pos h]
      simp only [h, true_iff] at hrv ⊢
      intro k hk
      exact hrv k (Nat.zero_le _) (by omega)
    · rw [if_neg h]
      constructor
      · intro hc
        exact absurd hc (by norm_num)
      · intro hall
        exact absurd (hrv.mpr fun k _ hk => hall k (by omega)) h
  · intro hall
    exact dirGo_count_eq dir maxRetries 0 fun k _ hk => hall k (by omega)

/-- C5 witness: the amended theorem applied to an always-failing
`direction` oracle: exactly `9` attempts are made. -/
theorem setup_retry_bound_witness :
    (setup 0 (fun _ => -1)).2 = maxRetries + 1 :=
  (setup_retry_bound 0 (fun _ => -1) le_rfl).2.2 (fun k _ => by norm_num)

end UpsPico
